import Mathlib

/-!
Verification of `src/mineVars.py` (UniProtKB paginated TSV fetcher).

The script is embedded shallowly: HTTP responses become a `Response`
structure, the urllib3 `Retry` policy becomes `retrySend`, Python's
`str.splitlines` becomes `splitlines`, the `rel="next"` link regex becomes
`re_next_link_match` (greedy, anchored at the start like `re.match`), and
the generator/consumer pair `get_batch` / `fetch_all_records` is fused into
the fuel-indexed state-passing loop `fetchLoop`.  The network is modelled by
a function `server : String → List Response` giving, for each URL, the
sequence of responses successive attempts at that URL would receive; the
output file is modelled as the list of strings passed to `out.write`.
-/

namespace MineVars

/-- Response headers used by the script: the `Link` header and the
`x-total-results` header (lines 67-73 and 82 of `mineVars.py`). -/
structure Headers where
  link : Option String
  xTotalResults : Option String
deriving DecidableEq, Repr

/-- An HTTP response: status code, headers, and body text (`response.text`). -/
structure Response where
  status : Nat
  headers : Headers
  body : String
deriving DecidableEq, Repr

/-! ## Retry policy (lines 45-51)

`retries = Retry(total=5, backoff_factor=0.25, status_forcelist=[500, 502, 503, 504])`
mounted on the session via `HTTPAdapter(max_retries=retries)`. -/

/-- Configuration of the urllib3 `Retry` object constructed at lines 45-49. -/
structure RetryConfig where
  total : Nat
  backoff_factor : ℚ
  status_forcelist : List Nat
deriving DecidableEq, Repr

/-- The `retries` object of line 45: 5 retries, backoff factor 0.25,
forced retry on statuses 500, 502, 503, 504. -/
def retries : RetryConfig :=
  { total := 5, backoff_factor := 1/4, status_forcelist := [500, 502, 503, 504] }

/-- The urllib3 default cap on a single backoff sleep (`Retry.DEFAULT_BACKOFF_MAX`). -/
def DEFAULT_BACKOFF_MAX : ℚ := 120

/-- Sleep before the n-th retry (n ≥ 1), per urllib3's `Retry.get_backoff_time`:
`backoff_factor * 2 ** (n - 1)`, capped at `DEFAULT_BACKOFF_MAX`. -/
def backoff_time (n : Nat) : ℚ :=
  min (retries.backoff_factor * 2 ^ (n - 1)) DEFAULT_BACKOFF_MAX

/-- One `session.get` under the urllib3 retry policy.  `attempts` is the
sequence of responses successive attempts would receive; `fuel` is the number
of retries still allowed.  A status in the forcelist consumes a retry; once
retries are exhausted (or no response arrives at all, modelling a connection
failure) the adapter raises `MaxRetryError`, modelled as `none`.  Any other
status is returned at once, without consuming a retry. -/
def retrySend : Nat → List Response → Option Response
  | _, [] => none
  | fuel, r :: rest =>
    if r.status ∈ retries.status_forcelist then
      match fuel with
      | 0 => none
      | f + 1 => retrySend f rest
    else some r

/-- `session.get(batch_url)` (line 80): the retry adapter with `total = 5`. -/
def session_get (attempts : List Response) : Option Response :=
  retrySend retries.total attempts

/-- `response.raise_for_status()` (line 81): `requests` raises `HTTPError`
exactly when `400 ≤ status < 600`. -/
def raise_for_status (r : Response) : Bool :=
  decide (400 ≤ r.status ∧ r.status < 600)

/-! ## `str.splitlines` (line 111) -/

/-- The line-boundary characters recognised by Python's `str.splitlines`. -/
def isLineBreak (c : Char) : Bool :=
  c == '\n' || c == '\r' || c == '\x0b' || c == '\x0c' ||
  c == '\x1c' || c == '\x1d' || c == '\x1e' || c == '\x85' ||
  c == '\u2028' || c == '\u2029'

/-- Worker for `splitlines`: `acc` holds the current line's characters in
reverse.  `\r\n` counts as a single boundary; a final boundary does not
produce a trailing empty line. -/
def splitlinesAux : List Char → List Char → List String
  | [], acc => if acc.isEmpty then [] else [String.mk acc.reverse]
  | '\r' :: '\n' :: rest, acc => String.mk acc.reverse :: splitlinesAux rest []
  | c :: rest, acc =>
    if isLineBreak c then String.mk acc.reverse :: splitlinesAux rest []
    else splitlinesAux rest (c :: acc)

/-- Python's `str.splitlines()`, as used on `batch.text` at line 111. -/
def splitlines (s : String) : List String :=
  splitlinesAux s.data []

/-! ## `get_next_link` (lines 44, 67-73)

`re_next_link = re.compile(r'<(.+)>; rel="next"')`, used with `re.match`
(anchored at the start of the header value, greedy `.+`, `.` matches any
character except a newline, and the suffix after the matched pattern is
unconstrained). -/

/-- The literal part of the pattern following the capture group. -/
def reNextLinkSuffix : List Char := (">; rel=\"next\"").data

/-- Greedy search for the capture group: try the longest candidate first,
exactly as the backtracking `.+` does.  `rest` is the header value after the
leading `<`; the candidate of length `i+1` succeeds when it contains no
newline and the remainder starts with `>; rel="next"`. -/
def reNextLinkTry (rest : List Char) : Nat → Option String
  | 0 => none
  | i + 1 =>
    if (rest.take (i + 1)).all (fun c => c != '\n') &&
        List.isPrefixOf reNextLinkSuffix (rest.drop (i + 1)) then
      some (String.mk (rest.take (i + 1)))
    else
      reNextLinkTry rest i

/-- `re_next_link.match(s)`: the captured group, if the pattern matches at
the start of `s`. -/
def re_next_link_match (s : String) : Option String :=
  match s.data with
  | '<' :: rest => reNextLinkTry rest rest.length
  | _ => none

/-- `get_next_link(headers)` (lines 67-73): extract the next-page URL from
the `Link` header, `None` when the header is absent or does not match. -/
def get_next_link (headers : Headers) : Option String :=
  match headers.link with
  | some s => re_next_link_match s
  | none => none

/-! ## URL builder (lines 14-39, 90-98) -/

/-- `BASE_URL` (line 14). -/
def BASE_URL : String := "https://rest.uniprot.org/uniprotkb/search"

/-- `SIZE` (line 15): UniProt max page size. -/
def SIZE : Nat := 500

/-- `FIELDS` (lines 23-39): the fixed comma-separated field list. -/
def FIELDS : String :=
  "accession,id,gene_names,gene_primary,gene_synonym,gene_oln,gene_orf," ++
  "organism_name,organism_id,protein_name,xref_proteomes,lineage,lineage_ids," ++
  "virus_hosts,cc_alternative_products,ft_var_seq,fragment,length,mass,cc_mass_spectrometry," ++
  "ft_variant,xref_biomuta,xref_dbsnp,xref_dmdm,ft_non_cons,ft_non_std,ft_non_ter," ++
  "cc_polymorphism,cc_rna_editing,sequence,cc_sequence_caution,ft_conflict,ft_unsure," ++
  "sequence_version,absorption,ft_act_site,cc_activity_regulation,ft_binding,cc_catalytic_activity," ++
  "cc_cofactor,ft_dna_bind,ec,cc_function,kinetics,cc_pathway,ph_dependence,redox_potential,rhea," ++
  "ft_site,temp_dependence,annotation_score,cc_caution,comment_count,feature_count,keywordid," ++
  "keyword,cc_miscellaneous,protein_existence,reviewed,tools,uniparc_id,cc_interaction,cc_subunit," ++
  "cc_developmental_stage,cc_induction,cc_tissue_specificity,go_p,go_c,go,go_f,go_id,cc_allergen," ++
  "cc_biotechnology,cc_disruption_phenotype,cc_disease,ft_mutagen,cc_pharmaceutical,cc_toxic_dose," ++
  "ft_intramem,cc_subcellular_location,ft_topo_dom,ft_transmem,ft_chain,ft_crosslnk,ft_disulfid," ++
  "ft_carbohyd,ft_init_met,ft_lipid,ft_mod_res,ft_peptide,cc_ptm,ft_propep,ft_signal,ft_transit," ++
  "structure_3d,ft_strand,ft_helix,ft_turn,lit_pubmed_id,date_created,date_modified,date_sequence_modified," ++
  "version,ft_coiled,ft_compbias,cc_domain,ft_domain,ft_motif,protein_families,ft_region,ft_repeat,ft_zn_fing"

/-- UTF-8 encoding of a single character, as a list of byte values. -/
def utf8Bytes (c : Char) : List Nat :=
  let n := c.toNat
  if n < 128 then [n]
  else if n < 2048 then [192 + n / 64, 128 + n % 64]
  else if n < 65536 then [224 + n / 4096, 128 + (n / 64) % 64, 128 + n % 64]
  else [240 + n / 262144, 128 + (n / 4096) % 64, 128 + (n / 64) % 64, 128 + n % 64]

/-- Uppercase hex digit for a value below 16. -/
def hexDigitChar (n : Nat) : Char :=
  if n < 10 then Char.ofNat (48 + n) else Char.ofNat (55 + n)

/-- Percent-encoding of one byte under `urllib.parse.quote` with the default
`safe='/'`: ASCII letters, digits, `_ . - ~` and `/` pass through, every
other byte becomes `%XX` with uppercase hex. -/
def quoteByte (n : Nat) : List Char :=
  if (65 ≤ n ∧ n ≤ 90) ∨ (97 ≤ n ∧ n ≤ 122) ∨ (48 ≤ n ∧ n ≤ 57) ∨
      n = 95 ∨ n = 46 ∨ n = 45 ∨ n = 126 ∨ n = 47 then
    [Char.ofNat n]
  else
    ['%', hexDigitChar (n / 16), hexDigitChar (n % 16)]

/-- `requests.utils.quote(str(v))` (line 98). -/
def quote (s : String) : String :=
  String.mk ((s.data.flatMap utf8Bytes).flatMap quoteByte)

/-- `build_query_url(tax_id, reviewed)` (lines 90-98): query string built
from the parameters in insertion order `query, fields, format, size`. -/
def build_query_url (tax_id : Int) (reviewed : String) : String :=
  let query := "reviewed:" ++ reviewed ++ " AND taxonomy_id:" ++ toString tax_id
  BASE_URL ++ "?" ++
    "query=" ++ quote query ++
    "&fields=" ++ quote FIELDS ++
    "&format=" ++ quote "tsv" ++
    "&size=" ++ quote (toString SIZE)

/-! ## Main download loop (lines 104-128) -/

/-- `info(msg)` (lines 58-59): the line printed to standard output. -/
def info (msg : String) : String := "[INFO] " ++ msg

/-- The message logged at line 113 when a batch body is empty. -/
def emptyBatchMsg : String := "Empty response batch — stopping."

/-- Observable state of one run of `fetch_all_records`: the strings passed
to `out.write` (each write is one list element), the locals `total` and
`header_written`, plus two pure observations: the `info` lines printed and
the URLs requested. -/
structure FetchState where
  file : List String
  total : Nat
  header_written : Bool
  logs : List String
  requests : List String
deriving DecidableEq, Repr

/-- The ways the loop can stop abnormally: the retry adapter's
`MaxRetryError`, the `HTTPError` of `raise_for_status`, or exhaustion of the
model's fuel (no counterpart in the source; it only bounds the recursion). -/
inductive FetchError where
  | maxRetryError
  | httpError (status : Nat)
  | fuelExhausted
deriving DecidableEq, Repr

/-- The inner `for line in lines` loop (lines 122-124): write each line with
a trailing newline and increment `total`. -/
def writeRows : FetchState → List String → FetchState
  | st, [] => st
  | st, line :: rest =>
    writeRows { st with file := st.file ++ [line ++ "\n"], total := st.total + 1 } rest

/-- The loop body for a non-empty batch (lines 116-126): write the header
line once (first batch only, `lines = lines[1:]`), write every remaining
line, and log progress.  The caller guarantees `lines` is non-empty (line
112 breaks first), so `headD` never sees its default. -/
def processBatch (st : FetchState) (lines : List String) (total_records : String) : FetchState :=
  let pr :=
    if st.header_written then (st, lines)
    else ({ st with file := st.file ++ [lines.headD "" ++ "\n"], header_written := true },
          lines.tail)
  let st2 := writeRows pr.1 pr.2
  { st2 with
    logs := st2.logs ++
      [info ("Fetched " ++ toString st2.total ++ " / " ++ total_records ++ " records so far.")] }

/-- The fused generator/consumer loop: `get_batch` (lines 76-84) driving the
`for batch, total_records in get_batch(url)` body of `fetch_all_records`
(lines 110-126).  Each iteration records the requested URL, performs
`session.get` under the retry policy, raises for 4xx/5xx statuses, breaks
on an empty body, otherwise processes the batch and follows the `Link`
header.  `fuel` bounds the number of iterations; a run is faithful whenever
the fuel is not exhausted. -/
def fetchLoop (server : String → List Response) :
    Nat → Option String → FetchState → FetchState × Option FetchError
  | _, none, st => (st, none)
  | 0, some _, st => (st, some FetchError.fuelExhausted)
  | fuel + 1, some url, st =>
    let st1 := { st with requests := st.requests ++ [url] }
    match session_get (server url) with
    | none => (st1, some FetchError.maxRetryError)
    | some r =>
      if raise_for_status r then (st1, some (FetchError.httpError r.status))
      else
        match splitlines r.body with
        | [] => ({ st1 with logs := st1.logs ++ [info emptyBatchMsg] }, none)
        | l :: ls =>
          fetchLoop server fuel (get_next_link r.headers)
            (processBatch st1 (l :: ls) (r.headers.xTotalResults.getD "unknown"))

/-- The mode string of the `open` call at line 109. -/
def open_mode : String := "w"

/-- The encoding of the `open` call at line 109. -/
def open_encoding : String := "utf-8"

/-- Opening the output file with mode `"w"` truncates it: whatever the file
held before (`prior`), the run starts writing into an empty file. -/
def open_w (_prior : List String) : List String := []

/-- The state right after `open(output_file, "w", encoding="utf-8")`
(lines 106-109), given the previous contents of the output file. -/
def initState (prior : List String) : FetchState :=
  { file := open_w prior, total := 0, header_written := false, logs := [], requests := [] }

/-- `fetch_all_records(tax_id, reviewed, output_file)` (lines 104-128).
`prior` is the previous contents of the file at `output_file`; `server` and
`fuel` parametrise the modelled network.  On normal loop exit the final
`info` of line 128 is logged; an uncaught exception skips it. -/
def fetch_all_records (server : String → List Response) (fuel : Nat)
    (tax_id : Int) (reviewed : String) (prior : List String) :
    FetchState × Option FetchError :=
  let url := build_query_url tax_id reviewed
  match fetchLoop server fuel (some url) (initState prior) with
  | (st, none) =>
    ({ st with logs := st.logs ++ [info ("Completed. Total downloaded: " ++ toString st.total)] },
     none)
  | (st, some e) => (st, some e)

/-! ## Unfolding lemmas for the loop -/

theorem fetchLoop_none (server : String → List Response) (fuel : Nat) (st : FetchState) :
    fetchLoop server fuel none st = (st, none) := by
  cases fuel <;> rfl

theorem fetchLoop_maxRetry (server : String → List Response) (fuel : Nat) (url : String)
    (st : FetchState) (h : session_get (server url) = none) :
    fetchLoop server (fuel + 1) (some url) st =
      ({ st with requests := st.requests ++ [url] }, some FetchError.maxRetryError) := by
  simp only [fetchLoop, h]

theorem fetchLoop_httpError (server : String → List Response) (fuel : Nat) (url : String)
    (st : FetchState) (r : Response) (hg : session_get (server url) = some r)
    (hr : raise_for_status r = true) :
    fetchLoop server (fuel + 1) (some url) st =
      ({ st with requests := st.requests ++ [url] }, some (FetchError.httpError r.status)) := by
  simp only [fetchLoop, hg, hr, if_true]

theorem fetchLoop_emptyBody (server : String → List Response) (fuel : Nat) (url : String)
    (st : FetchState) (r : Response) (hg : session_get (server url) = some r)
    (hr : raise_for_status r = false) (hb : splitlines r.body = []) :
    fetchLoop server (fuel + 1) (some url) st =
      ({ st with requests := st.requests ++ [url],
                 logs := st.logs ++ [info emptyBatchMsg] }, none) := by
  simp only [fetchLoop, hg, hr, hb, Bool.false_eq_true, if_false]

theorem fetchLoop_cons (server : String → List Response) (fuel : Nat) (url : String)
    (st : FetchState) (r : Response) (l : String) (ls : List String)
    (hg : session_get (server url) = some r) (hr : raise_for_status r = false)
    (hb : splitlines r.body = l :: ls) :
    fetchLoop server (fuel + 1) (some url) st =
      fetchLoop server fuel (get_next_link r.headers)
        (processBatch { st with requests := st.requests ++ [url] } (l :: ls)
          (r.headers.xTotalResults.getD "unknown")) := by
  simp only [fetchLoop, hg, hr, hb, Bool.false_eq_true, if_false]

/-! ## Characterising the writer -/

theorem writeRows_eq (ls : List String) : ∀ st : FetchState,
    writeRows st ls =
      { st with file := st.file ++ ls.map (fun l => l ++ "\n"), total := st.total + ls.length } := by
  induction ls with
  | nil => intro st; simp [writeRows]
  | cons l rest ih =>
    intro st
    rw [writeRows, ih]
    simp [List.append_assoc, Nat.add_comm, Nat.add_assoc, Nat.add_left_comm]

theorem processBatch_true (st : FetchState) (lines : List String) (t : String)
    (h : st.header_written = true) :
    processBatch st lines t =
      { st with file := st.file ++ lines.map (fun l => l ++ "\n"),
                total := st.total + lines.length,
                logs := st.logs ++
                  [info ("Fetched " ++ toString (st.total + lines.length) ++ " / " ++ t ++
                    " records so far.")] } := by
  simp [processBatch, h, writeRows_eq]

theorem processBatch_false (st : FetchState) (l : String) (ls : List String) (t : String)
    (h : st.header_written = false) :
    processBatch st (l :: ls) t =
      { st with file := st.file ++ (l ++ "\n") :: ls.map (fun x => x ++ "\n"),
                total := st.total + ls.length,
                header_written := true,
                logs := st.logs ++
                  [info ("Fetched " ++ toString (st.total + ls.length) ++ " / " ++ t ++
                    " records so far.")] } := by
  simp [processBatch, h, writeRows_eq, List.append_assoc]

/-- `processBatch` never decreases the counter. -/
theorem processBatch_total_mono (st : FetchState) (lines : List String) (t : String) :
    st.total ≤ (processBatch st lines t).total := by
  cases h : st.header_written with
  | true => rw [processBatch_true st lines t h]; exact Nat.le_add_right _ _
  | false =>
    cases lines with
    | nil => simp [processBatch, h, writeRows_eq]
    | cons l ls => rw [processBatch_false st l ls t h]; exact Nat.le_add_right _ _

/-- `processBatch` always leaves the header flag set. -/
theorem processBatch_header (st : FetchState) (lines : List String) (t : String) :
    (processBatch st lines t).header_written = true := by
  cases h : st.header_written with
  | true => rw [processBatch_true st lines t h]; exact h
  | false =>
    cases lines with
    | nil => simp [processBatch, h, writeRows_eq]
    | cons l ls => rw [processBatch_false st l ls t h]

/-! ## The header/counter invariant -/

/-- The running-count invariant of `fetch_all_records`: either the header
has been written and the file holds exactly `total + 1` write calls, or
nothing has happened yet. -/
def Inv (st : FetchState) : Prop :=
  (st.header_written = true ∧ st.file.length = st.total + 1) ∨
  (st.header_written = false ∧ st.file = [] ∧ st.total = 0)

theorem processBatch_inv (st : FetchState) (l : String) (ls : List String) (t : String)
    (h : Inv st) : Inv (processBatch st (l :: ls) t) := by
  rcases h with ⟨hw, hl⟩ | ⟨hw, hf, ht⟩
  · left
    rw [processBatch_true st (l :: ls) t hw]
    simp [hl]
    exact ⟨hw, by omega⟩
  · left
    rw [processBatch_false st l ls t hw]
    simp [hf, ht]

theorem fetchLoop_inv (server : String → List Response) :
    ∀ (fuel : Nat) (url : Option String) (st : FetchState), Inv st →
      Inv (fetchLoop server fuel url st).1 ∧
        st.total ≤ (fetchLoop server fuel url st).1.total := by
  intro fuel
  induction fuel with
  | zero =>
    intro url st h
    cases url <;> exact ⟨h, Nat.le_refl _⟩
  | succ n ih =>
    intro url st h
    cases url with
    | none => exact ⟨h, Nat.le_refl _⟩
    | some u =>
      cases hg : session_get (server u) with
      | none => rw [fetchLoop_maxRetry server n u st hg]; exact ⟨by simpa [Inv] using h, Nat.le_refl _⟩
      | some r =>
        cases hr : raise_for_status r with
        | true =>
          rw [fetchLoop_httpError server n u st r hg hr]
          exact ⟨by simpa [Inv] using h, Nat.le_refl _⟩
        | false =>
          cases hb : splitlines r.body with
          | nil =>
            rw [fetchLoop_emptyBody server n u st r hg hr hb]
            exact ⟨by simpa [Inv] using h, Nat.le_refl _⟩
          | cons l ls =>
            rw [fetchLoop_cons server n u st r l ls hg hr hb]
            have hst1 : Inv { st with requests := st.requests ++ [u] } := by simpa [Inv] using h
            have h1 := processBatch_inv _ l ls (r.headers.xTotalResults.getD "unknown") hst1
            refine ⟨(ih _ _ h1).1, Nat.le_trans ?_ (ih _ _ h1).2⟩
            simpa using
              processBatch_total_mono { st with requests := st.requests ++ [u] } (l :: ls)
                (r.headers.xTotalResults.getD "unknown")

/-! ## Retry-policy lemmas -/

/-- A forcelist status consumes one retry and moves on to the next attempt. -/
theorem retrySend_forced (r : Response) (rest : List Response) (fuel : Nat)
    (h : r.status ∈ retries.status_forcelist) :
    retrySend (fuel + 1) (r :: rest) = retrySend fuel rest := by
  simp [retrySend, h]

/-- A status outside the forcelist is returned at once, retries untouched. -/
theorem retrySend_skip (r : Response) (rest : List Response) (fuel : Nat)
    (h : r.status ∉ retries.status_forcelist) :
    retrySend fuel (r :: rest) = some r := by
  rw [retrySend.eq_def]
  simp [h]

/-- With more forcelist responses than remaining retries, the adapter gives up. -/
theorem retrySend_exhaust : ∀ (rs : List Response) (fuel : Nat), fuel < rs.length →
    (∀ x ∈ rs, x.status ∈ retries.status_forcelist) → retrySend fuel rs = none := by
  intro rs
  induction rs with
  | nil => intro fuel h _; simp at h
  | cons r rest ih =>
    intro fuel hlen hall
    have hr : r.status ∈ retries.status_forcelist := hall r (List.mem_cons_self r rest)
    cases fuel with
    | zero => simp [retrySend, hr]
    | succ f =>
      rw [retrySend_forced r rest f hr]
      exact ih f (by simpa using hlen) (fun x hx => hall x (List.mem_cons_of_mem r hx))

/-- As long as at most `retries.total` forcelist responses precede it, the
first non-forcelist response is the one `session.get` returns. -/
theorem retrySend_recovers : ∀ (bad : List Response) (fuel : Nat) (r : Response)
    (rest : List Response), bad.length ≤ fuel →
    (∀ x ∈ bad, x.status ∈ retries.status_forcelist) →
    r.status ∉ retries.status_forcelist →
    retrySend fuel (bad ++ r :: rest) = some r := by
  intro bad
  induction bad with
  | nil => intro fuel r rest _ _ hr; exact retrySend_skip r rest fuel hr
  | cons b bs ih =>
    intro fuel r rest hlen hbad hr
    cases fuel with
    | zero => simp at hlen
    | succ f =>
      rw [List.cons_append, retrySend_forced b (bs ++ r :: rest) f (hbad b (List.mem_cons_self b bs))]
      exact ih f r rest (by simpa using hlen) (fun x hx => hbad x (List.mem_cons_of_mem b hx)) hr

/-! ## Clean runs

`cleanChain server fuel url = some pss` says that starting from `url` the
loop would see exactly the batches `pss` (given as their `splitlines`): every
request recovers to a non-error status within the retry budget, no body is
empty, and the chain ends by a missing/unmatched `Link` header within
`fuel` iterations. -/

def cleanChain (server : String → List Response) :
    Nat → Option String → Option (List (List String))
  | _, none => some []
  | 0, some _ => none
  | fuel + 1, some url =>
    match session_get (server url) with
    | none => none
    | some r =>
      if raise_for_status r then none
      else
        match splitlines r.body with
        | [] => none
        | l :: ls => (cleanChain server fuel (get_next_link r.headers)).map
            (fun pss => (l :: ls) :: pss)

theorem cleanChain_none (server : String → List Response) (fuel : Nat) :
    cleanChain server fuel none = some [] := by
  cases fuel <;> rfl

theorem cleanChain_maxRetry (server : String → List Response) (fuel : Nat) (url : String)
    (h : session_get (server url) = none) :
    cleanChain server (fuel + 1) (some url) = none := by
  simp only [cleanChain, h]

theorem cleanChain_httpError (server : String → List Response) (fuel : Nat) (url : String)
    (r : Response) (hg : session_get (server url) = some r) (hr : raise_for_status r = true) :
    cleanChain server (fuel + 1) (some url) = none := by
  simp only [cleanChain, hg, hr, if_true]

theorem cleanChain_emptyBody (server : String → List Response) (fuel : Nat) (url : String)
    (r : Response) (hg : session_get (server url) = some r) (hr : raise_for_status r = false)
    (hb : splitlines r.body = []) :
    cleanChain server (fuel + 1) (some url) = none := by
  simp only [cleanChain, hg, hr, hb, Bool.false_eq_true, if_false]

theorem cleanChain_cons (server : String → List Response) (fuel : Nat) (url : String)
    (r : Response) (l : String) (ls : List String)
    (hg : session_get (server url) = some r) (hr : raise_for_status r = false)
    (hb : splitlines r.body = l :: ls) :
    cleanChain server (fuel + 1) (some url) =
      (cleanChain server fuel (get_next_link r.headers)).map
        (fun pss => (l :: ls) :: pss) := by
  simp only [cleanChain, hg, hr, hb, Bool.false_eq_true, if_false]

/-- On a clean run with the header already written, the loop appends every
line of every remaining batch, counts them all, and ends normally. -/
theorem fetchLoop_cleanChain (server : String → List Response) :
    ∀ (fuel : Nat) (url : Option String) (st : FetchState) (pss : List (List String)),
      cleanChain server fuel url = some pss → st.header_written = true →
      (fetchLoop server fuel url st).1.file =
          st.file ++ pss.flatten.map (fun l => l ++ "\n") ∧
        (fetchLoop server fuel url st).1.total = st.total + pss.flatten.length ∧
        (fetchLoop server fuel url st).2 = none := by
  intro fuel
  induction fuel with
  | zero =>
    intro url st pss hc hw
    cases url with
    | none =>
      rw [cleanChain_none] at hc
      obtain rfl : pss = [] := by simpa using hc.symm
      simp [fetchLoop_none]
    | some u => simp [cleanChain] at hc
  | succ n ih =>
    intro url st pss hc hw
    cases url with
    | none =>
      rw [cleanChain_none] at hc
      obtain rfl : pss = [] := by simpa using hc.symm
      simp [fetchLoop_none]
    | some u =>
      cases hg : session_get (server u) with
      | none => rw [cleanChain_maxRetry server n u hg] at hc; simp at hc
      | some r =>
        cases hr : raise_for_status r with
        | true => rw [cleanChain_httpError server n u r hg hr] at hc; simp at hc
        | false =>
          cases hb : splitlines r.body with
          | nil => rw [cleanChain_emptyBody server n u r hg hr hb] at hc; simp at hc
          | cons l ls =>
            rw [cleanChain_cons server n u r l ls hg hr hb] at hc
            simp only [Option.map_eq_some'] at hc
            obtain ⟨pss', hc', rfl⟩ := hc
            rw [fetchLoop_cons server n u st r l ls hg hr hb]
            have hpb := processBatch_true { st with requests := st.requests ++ [u] } (l :: ls)
              (r.headers.xTotalResults.getD "unknown") hw
            have hih := ih (get_next_link r.headers)
              (processBatch { st with requests := st.requests ++ [u] } (l :: ls)
                (r.headers.xTotalResults.getD "unknown"))
              pss' hc' (processBatch_header _ _ _)
            refine ⟨?_, ?_, hih.2.2⟩
            · rw [hih.1, hpb]; simp [List.append_assoc]
            · rw [hih.2.1, hpb]; simp; omega

/-! ## Wrapper lemmas for `fetch_all_records` -/

theorem fetch_all_records_ok (server : String → List Response) (fuel : Nat) (tax_id : Int)
    (reviewed : String) (prior : List String) (st : FetchState)
    (h : fetchLoop server fuel (some (build_query_url tax_id reviewed)) (initState prior) =
      (st, none)) :
    fetch_all_records server fuel tax_id reviewed prior =
      ({ st with logs := st.logs ++
          [info ("Completed. Total downloaded: " ++ toString st.total)] }, none) := by
  simp only [fetch_all_records, h]

theorem fetch_all_records_err (server : String → List Response) (fuel : Nat) (tax_id : Int)
    (reviewed : String) (prior : List String) (st : FetchState) (e : FetchError)
    (h : fetchLoop server fuel (some (build_query_url tax_id reviewed)) (initState prior) =
      (st, some e)) :
    fetch_all_records server fuel tax_id reviewed prior = (st, some e) := by
  simp only [fetch_all_records, h]

theorem processBatch_requests (st : FetchState) (lines : List String) (t : String) :
    (processBatch st lines t).requests = st.requests := by
  cases h : st.header_written <;> simp [processBatch, h, writeRows_eq]

/-- The invariant holds of every completed (or aborted) run. -/
theorem fetch_all_records_inv (server : String → List Response) (fuel : Nat) (tax_id : Int)
    (reviewed : String) (prior : List String) :
    Inv (fetch_all_records server fuel tax_id reviewed prior).1 := by
  have h0 : Inv (initState prior) := Or.inr ⟨rfl, rfl, rfl⟩
  have h := (fetchLoop_inv server fuel (some (build_query_url tax_id reviewed))
    (initState prior) h0).1
  rcases hres : fetchLoop server fuel (some (build_query_url tax_id reviewed))
    (initState prior) with ⟨st, e⟩
  rw [hres] at h
  cases e with
  | none =>
    rw [fetch_all_records_ok server fuel tax_id reviewed prior st hres]
    simpa [Inv] using h
  | some e =>
    rw [fetch_all_records_err server fuel tax_id reviewed prior st e hres]
    simpa [Inv] using h

/-! ## The mocked three-page sequence of C1 -/

/-- A page body of `n` data rows `d`, each newline-terminated. -/
def mockRows (n : Nat) : String := String.mk ((List.replicate n ['d', '\n']).flatten)

/-- First page body: one header line `h` followed by 500 data rows. -/
def mockBody1 : String := String.mk ('h' :: '\n' :: (List.replicate 500 ['d', '\n']).flatten)

/-- Page 1 of the mock: 500 records, `x-total-results` 1042, link to `u2`. -/
def mockPage1 : Response :=
  ⟨200, ⟨some "<u2>; rel=\"next\"", some "1042"⟩, mockBody1⟩

/-- Page 2 of the mock: 500 records, `x-total-results` 1042, link to `u3`. -/
def mockPage2 : Response :=
  ⟨200, ⟨some "<u3>; rel=\"next\"", some "1042"⟩, mockRows 500⟩

/-- Page 3 of the mock: 42 records, `x-total-results` 1042, no further link. -/
def mockPage3 : Response :=
  ⟨200, ⟨none, some "1042"⟩, mockRows 42⟩

/-- The mocked server: the initial query URL receives page 1, `u2` page 2,
`u3` page 3; every request succeeds on the first attempt. -/
def mockServer : String → List Response := fun u =>
  if u = "u2" then [mockPage2] else if u = "u3" then [mockPage3] else [mockPage1]

set_option maxRecDepth 1000000 in
/-- C1: over the mocked sequence of exactly 3 pages (500, 500 and 42 records,
each response carrying the total-results header "1042"), `fetch_all_records`
ends normally with a counted total of exactly 1042 data rows, the header
line having been written (and excluded from the count) exactly once: the
file holds 1042 + 1 write calls and the completion log reports 1042. -/
theorem C1_mock_three_pages_total :
    (fetch_all_records mockServer 5 816 "true" []).1.total = 1042 ∧
    (fetch_all_records mockServer 5 816 "true" []).1.file.length = 1042 + 1 ∧
    (fetch_all_records mockServer 5 816 "true" []).1.header_written = true ∧
    (fetch_all_records mockServer 5 816 "true" []).2 = none ∧
    (fetch_all_records mockServer 5 816 "true" []).1.logs.getLast? =
      some (info "Completed. Total downloaded: 1042") := by
  have htot : (fetch_all_records mockServer 5 816 "true" []).1.total = 1042 := by decide
  have hhw : (fetch_all_records mockServer 5 816 "true" []).1.header_written = true := by decide
  refine ⟨htot, ?_, hhw, by decide, by decide⟩
  rcases fetch_all_records_inv mockServer 5 816 "true" [] with ⟨_, hlen⟩ | ⟨hfw, _, _⟩
  · rw [hlen, htot]
  · rw [hhw] at hfw; cases hfw

/-- C2: on every clean run (every batch non-empty, no HTTP error, chain
exhausted within fuel) whose batches split into lines `(h :: d) :: pss`, the
output file is exactly the first page's first line written once, followed by
every remaining line of every page in order, each `out.write` argument
carrying a trailing newline; nothing is duplicated or dropped, and the
counter counts exactly the data rows. -/
theorem C2_file_is_header_then_rows (server : String → List Response) (fuel : Nat)
    (tax_id : Int) (reviewed : String) (prior : List String)
    (h : String) (d : List String) (pss : List (List String))
    (hc : cleanChain server fuel (some (build_query_url tax_id reviewed)) =
      some ((h :: d) :: pss)) :
    (fetch_all_records server fuel tax_id reviewed prior).1.file =
        (h :: (d ++ pss.flatten)).map (fun l => l ++ "\n") ∧
      (fetch_all_records server fuel tax_id reviewed prior).1.total =
        (d ++ pss.flatten).length ∧
      (fetch_all_records server fuel tax_id reviewed prior).2 = none := by
  cases fuel with
  | zero => simp [cleanChain] at hc
  | succ n =>
    cases hg : session_get (server (build_query_url tax_id reviewed)) with
    | none => rw [cleanChain_maxRetry server n _ hg] at hc; simp at hc
    | some r =>
      cases hr : raise_for_status r with
      | true => rw [cleanChain_httpError server n _ r hg hr] at hc; simp at hc
      | false =>
        cases hb : splitlines r.body with
        | nil => rw [cleanChain_emptyBody server n _ r hg hr hb] at hc; simp at hc
        | cons l ls =>
          rw [cleanChain_cons server n _ r l ls hg hr hb] at hc
          simp only [Option.map_eq_some'] at hc
          obtain ⟨pss', hc', heq⟩ := hc
          obtain ⟨⟨h1, h2⟩, h3⟩ : (h = l ∧ d = ls) ∧ pss = pss' := by
            simpa using heq.symm
          subst h1; subst h2; subst h3
          have hstep := fetchLoop_cons server n (build_query_url tax_id reviewed)
            (initState prior) r h d hg hr hb
          have hpb := processBatch_false { initState prior with
              requests := (initState prior).requests ++ [build_query_url tax_id reviewed] }
            h d (r.headers.xTotalResults.getD "unknown") rfl
          have hrest := fetchLoop_cleanChain server n (get_next_link r.headers)
            (processBatch { initState prior with
                requests := (initState prior).requests ++ [build_query_url tax_id reviewed] }
              (h :: d) (r.headers.xTotalResults.getD "unknown"))
            pss hc' (processBatch_header _ _ _)
          rcases hres : fetchLoop server n (get_next_link r.headers)
            (processBatch { initState prior with
                requests := (initState prior).requests ++ [build_query_url tax_id reviewed] }
              (h :: d) (r.headers.xTotalResults.getD "unknown")) with ⟨stF, e⟩
          rw [hres] at hrest
          obtain ⟨hfile, htotal, hnone⟩ := hrest
          simp only at hfile htotal hnone
          subst hnone
          have hloop : fetchLoop server (n + 1) (some (build_query_url tax_id reviewed))
              (initState prior) = (stF, none) := by rw [hstep, hres]
          rw [fetch_all_records_ok server (n + 1) tax_id reviewed prior stF hloop]
          refine ⟨?_, ?_, rfl⟩
          · simp only [hfile, hpb]
            simp [initState, open_w, List.append_assoc]
          · simp only [htotal, hpb]
            simp [initState, open_w]

/-- A two-page clean run used to instantiate C2. -/
def c2Page1 : Response := ⟨200, ⟨some "<u2>; rel=\"next\"", some "3"⟩, "hdr\na1\na2"⟩

/-- Second page of the C2 instance: one data row, no further link. -/
def c2Page2 : Response := ⟨200, ⟨none, some "3"⟩, "a3"⟩

/-- Server of the C2 instance. -/
def c2Server : String → List Response := fun u =>
  if u = "u2" then [c2Page2] else [c2Page1]

/-- Witness for C2 at a concrete two-page run. -/
theorem C2_file_is_header_then_rows_witness :
    (fetch_all_records c2Server 3 0 "true" ["old"]).1.file =
        ("hdr" :: (["a1", "a2"] ++ ([["a3"]] : List (List String)).flatten)).map
          (fun l => l ++ "\n") ∧
      (fetch_all_records c2Server 3 0 "true" ["old"]).1.total =
        (["a1", "a2"] ++ ([["a3"]] : List (List String)).flatten).length ∧
      (fetch_all_records c2Server 3 0 "true" ["old"]).2 = none :=
  C2_file_is_header_then_rows c2Server 3 0 "true" ["old"] "hdr" ["a1", "a2"] [["a3"]]
    (by decide)

/-! ## C3: the retry policy -/

/-- A 501 response, used to refute the "every 5xx is retried" reading. -/
def resp501 : Response := ⟨501, ⟨none, none⟩, ""⟩

/-- A 503 response, the retryable case. -/
def resp503 : Response := ⟨503, ⟨none, none⟩, ""⟩

/-- A plain successful response. -/
def resp200 : Response := ⟨200, ⟨none, some "1"⟩, "hdr"⟩

/-- C3 (counterexample): 501 has a 5xx status code, yet the adapter does not
retry it — `session.get` returns the 501 response itself rather than the 200
that a retry would have obtained, and `raise_for_status` then raises, so the
error is visible to the caller. -/
theorem C3_counterexample_501_not_retried :
    500 ≤ resp501.status ∧ resp501.status < 600 ∧
    session_get [resp501, resp200] = some resp501 ∧
    some resp501 ≠ some resp200 ∧
    raise_for_status resp501 = true := by decide

set_option maxRecDepth 2000 in
/-- C3 (amended): for every HTTP response whose status is in the configured
forcelist {500, 502, 503, 504} — not every 5xx status — the request is
automatically retried, up to `retries.total = 5` times, with exponential
backoff of base factor 0.25 s (doubling at each retry); any run of at most 5
such responses followed by a non-forcelist response recovers silently, the
failure only propagates once 5 retries are exhausted, and in particular a
single 503 followed by a 200 yields the 200 with no error visible. -/
theorem C3_amended_forcelist_retry :
    retries.total = 5 ∧
    retries.backoff_factor = 1/4 ∧
    retries.status_forcelist = [500, 502, 503, 504] ∧
    backoff_time 1 = 1/4 ∧
    (∀ n : Nat, 1 ≤ n → n + 1 ≤ retries.total →
      backoff_time (n + 1) = 2 * backoff_time n) ∧
    (∀ (bad : List Response) (r : Response) (rest : List Response),
      bad.length ≤ retries.total →
      (∀ x ∈ bad, x.status ∈ retries.status_forcelist) →
      r.status ∉ retries.status_forcelist →
      session_get (bad ++ r :: rest) = some r) ∧
    (∀ rs : List Response, retries.total < rs.length →
      (∀ x ∈ rs, x.status ∈ retries.status_forcelist) →
      session_get rs = none) ∧
    session_get [resp503, resp200] = some resp200 ∧
    raise_for_status resp200 = false := by
  refine ⟨rfl, by norm_num [retries], rfl,
    by norm_num [backoff_time, retries, DEFAULT_BACKOFF_MAX, min_def], ?_, ?_, ?_,
    by decide, by decide⟩
  · intro n h1 h2
    simp only [retries] at h2
    have h3 : n ≤ 4 := by omega
    interval_cases n <;>
      norm_num [backoff_time, retries, DEFAULT_BACKOFF_MAX, min_def]
  · intro bad r rest hlen hbad hr
    exact retrySend_recovers bad retries.total r rest hlen hbad hr
  · intro rs hlen hall
    exact retrySend_exhaust rs retries.total hlen hall

/-- Witness for the amended C3: one 503 then a 200, recovered silently. -/
theorem C3_amended_forcelist_retry_witness :
    session_get ([resp503] ++ resp200 :: []) = some resp200 :=
  C3_amended_forcelist_retry.2.2.2.2.2.1 [resp503] resp200 []
    (by decide) (by decide) (by decide)

/-- C4: a response whose headers carry no `Link` header, or whose `Link`
value does not match the `rel="next"` pattern, is processed and then the
loop terminates — the run's final state is exactly the one-page processing
of that response, and no URL beyond that page's is ever requested. -/
theorem C4_no_next_link_terminates (server : String → List Response) (fuel : Nat)
    (url : String) (st : FetchState) (r : Response) (l : String) (ls : List String)
    (hg : session_get (server url) = some r)
    (hr : raise_for_status r = false)
    (hb : splitlines r.body = l :: ls)
    (hl : r.headers.link = none ∨
      ∀ s, r.headers.link = some s → re_next_link_match s = none) :
    fetchLoop server (fuel + 1) (some url) st =
        (processBatch { st with requests := st.requests ++ [url] } (l :: ls)
          (r.headers.xTotalResults.getD "unknown"), none) ∧
      (fetchLoop server (fuel + 1) (some url) st).1.requests = st.requests ++ [url] := by
  have hnl : get_next_link r.headers = none := by
    rcases hl with hnone | hmatch
    · simp [get_next_link, hnone]
    · cases hlk : r.headers.link with
      | none => simp [get_next_link, hlk]
      | some s => simp [get_next_link, hlk, hmatch s hlk]
  have hstep : fetchLoop server (fuel + 1) (some url) st =
      (processBatch { st with requests := st.requests ++ [url] } (l :: ls)
        (r.headers.xTotalResults.getD "unknown"), none) := by
    rw [fetchLoop_cons server fuel url st r l ls hg hr hb, hnl, fetchLoop_none]
  refine ⟨hstep, ?_⟩
  rw [hstep]
  simp [processBatch_requests]

/-- The single page of the C4 instance: data but no `Link` header. -/
def c4Page : Response := ⟨200, ⟨none, some "2"⟩, "hdr\nrow1\nrow2"⟩

/-- Server of the C4 instance: every URL gets the same link-free page. -/
def c4Server : String → List Response := fun _ => [c4Page]

/-- Witness for C4: the loop stops after the single link-free page. -/
theorem C4_no_next_link_terminates_witness :
    fetchLoop c4Server (7 + 1) (some "start") (initState []) =
        (processBatch { initState [] with requests := (initState []).requests ++ ["start"] }
          ("hdr" :: ["row1", "row2"])
          (c4Page.headers.xTotalResults.getD "unknown"), none) ∧
      (fetchLoop c4Server (7 + 1) (some "start") (initState [])).1.requests =
        (initState []).requests ++ ["start"] :=
  C4_no_next_link_terminates c4Server 7 "start" (initState []) c4Page "hdr" ["row1", "row2"]
    (by decide) (by decide) (by decide) (Or.inl (by decide))

/-- C5: an empty response body is a normal termination: the loop logs the
"Empty response batch — stopping." message, writes nothing for that page,
and stops without an error; when it is the very first page,
`fetch_all_records` then logs completion with the (zero) running total. -/
theorem C5_empty_body_normal_stop (server : String → List Response) (fuel : Nat)
    (url : String) (st : FetchState) (r : Response)
    (hg : session_get (server url) = some r)
    (hr : raise_for_status r = false)
    (hb : splitlines r.body = []) :
    fetchLoop server (fuel + 1) (some url) st =
        ({ st with requests := st.requests ++ [url],
                   logs := st.logs ++ [info emptyBatchMsg] }, none) ∧
      ∀ (tax_id : Int) (reviewed : String) (prior : List String),
        session_get (server (build_query_url tax_id reviewed)) = some r →
        fetch_all_records server (fuel + 1) tax_id reviewed prior =
          ({ file := [], total := 0, header_written := false,
             logs := [info emptyBatchMsg, info "Completed. Total downloaded: 0"],
             requests := [build_query_url tax_id reviewed] }, none) := by
  refine ⟨fetchLoop_emptyBody server fuel url st r hg hr hb, ?_⟩
  intro tax_id reviewed prior hg0
  have hloop := fetchLoop_emptyBody server fuel (build_query_url tax_id reviewed)
    (initState prior) r hg0 hr hb
  rw [fetch_all_records_ok server (fuel + 1) tax_id reviewed prior _ hloop]
  simp [initState, open_w]
  rfl

/-- The empty-bodied page of the C5 instance. -/
def c5Page : Response := ⟨200, ⟨some "<u2>; rel=\"next\"", some "0"⟩, ""⟩

/-- Server of the C5 instance. -/
def c5Server : String → List Response := fun _ => [c5Page]

/-- Witness for C5 at a concrete empty first page. -/
theorem C5_empty_body_normal_stop_witness :
    fetch_all_records c5Server (2 + 1) 9606 "false" ["stale"] =
      ({ file := [], total := 0, header_written := false,
         logs := [info emptyBatchMsg, info "Completed. Total downloaded: 0"],
         requests := [build_query_url 9606 "false"] }, none) :=
  (C5_empty_body_normal_stop c5Server 2 "whatever" (initState []) c5Page
      (by decide) (by decide) (by decide)).2
    9606 "false" ["stale"] (by decide)

/-- C6: a 4xx response is returned by the adapter without consuming any
retry, `raise_for_status` raises at once, and the resulting error escapes
`fetch_all_records` uncaught — the run ends with `httpError`, nothing
written and no completion log. -/
theorem C6_4xx_raises_immediately (r : Response) (rest : List Response)
    (h4 : 400 ≤ r.status) (h5 : r.status < 500) :
    session_get (r :: rest) = some r ∧
      (∀ (server : String → List Response) (fuel : Nat) (url : String) (st : FetchState),
        server url = r :: rest →
        fetchLoop server (fuel + 1) (some url) st =
          ({ st with requests := st.requests ++ [url] },
           some (FetchError.httpError r.status))) ∧
      (∀ (server : String → List Response) (fuel : Nat) (tax_id : Int) (reviewed : String)
          (prior : List String),
        server (build_query_url tax_id reviewed) = r :: rest →
        fetch_all_records server (fuel + 1) tax_id reviewed prior =
          ({ file := [], total := 0, header_written := false, logs := [],
             requests := [build_query_url tax_id reviewed] },
           some (FetchError.httpError r.status))) := by
  have hnotin : r.status ∉ retries.status_forcelist := by
    intro hmem
    simp only [retries, List.mem_cons, List.not_mem_nil, or_false] at hmem
    rcases hmem with h | h | h | h <;> omega
  have hskip : session_get (r :: rest) = some r := retrySend_skip r rest retries.total hnotin
  have hraise : raise_for_status r = true := by
    simp only [raise_for_status, decide_eq_true_eq]
    omega
  refine ⟨hskip, ?_, ?_⟩
  · intro server fuel url st hsrv
    exact fetchLoop_httpError server fuel url st r (by rw [hsrv]; exact hskip) hraise
  · intro server fuel tax_id reviewed prior hsrv
    have hloop := fetchLoop_httpError server fuel (build_query_url tax_id reviewed)
      (initState prior) r (by rw [hsrv]; exact hskip) hraise
    rw [fetch_all_records_err server (fuel + 1) tax_id reviewed prior _ _ hloop]
    simp [initState, open_w]

/-- A 404 response. -/
def resp404 : Response := ⟨404, ⟨none, none⟩, "Not Found"⟩

/-- Server of the C6 instance: always 404, a 200 queued behind it that a
(non-existent) retry would have reached. -/
def c6Server : String → List Response := fun _ => [resp404, resp200]

/-- Witness for C6: the 404 escapes `fetch_all_records` with nothing written. -/
theorem C6_4xx_raises_immediately_witness :
    fetch_all_records c6Server (3 + 1) 816 "true" ["old line"] =
      ({ file := [], total := 0, header_written := false, logs := [],
         requests := [build_query_url 816 "true"] },
       some (FetchError.httpError resp404.status)) :=
  (C6_4xx_raises_immediately resp404 [resp200] (by decide) (by decide)).2.2
    c6Server 3 816 "true" ["old line"] rfl

/-- C7: the output file is opened in text mode `"w"` with UTF-8 encoding,
which truncates any existing file: the run starts from an empty file and its
whole outcome is independent of the previous contents of the output path —
re-running with the same parameters overwrites rather than appends. -/
theorem C7_overwrite_not_append :
    open_mode = "w" ∧ open_encoding = "utf-8" ∧
    (∀ prior : List String, (initState prior).file = []) ∧
    (∀ (server : String → List Response) (fuel : Nat) (tax_id : Int) (reviewed : String)
        (prior : List String),
      fetch_all_records server fuel tax_id reviewed prior =
        fetch_all_records server fuel tax_id reviewed []) :=
  ⟨rfl, rfl, fun _ => rfl, fun _ _ _ _ _ => rfl⟩

/-- C8: a query with zero matching records — a single page whose body is
empty, or holds only a header line and no next link — leaves the output
file holding nothing (resp. just the header line) and the run completes
normally with the log reporting total = 0. -/
theorem C8_zero_matching_records (server : String → List Response) (fuel : Nat)
    (tax_id : Int) (reviewed : String) (prior : List String) (r : Response)
    (hg : session_get (server (build_query_url tax_id reviewed)) = some r)
    (hr : raise_for_status r = false) :
    (splitlines r.body = [] →
      (fetch_all_records server (fuel + 1) tax_id reviewed prior).1.file = [] ∧
      (fetch_all_records server (fuel + 1) tax_id reviewed prior).1.total = 0 ∧
      (fetch_all_records server (fuel + 1) tax_id reviewed prior).2 = none ∧
      (fetch_all_records server (fuel + 1) tax_id reviewed prior).1.logs.getLast? =
        some (info "Completed. Total downloaded: 0")) ∧
    (∀ hl : String, splitlines r.body = [hl] → get_next_link r.headers = none →
      (fetch_all_records server (fuel + 1) tax_id reviewed prior).1.file = [hl ++ "\n"] ∧
      (fetch_all_records server (fuel + 1) tax_id reviewed prior).1.total = 0 ∧
      (fetch_all_records server (fuel + 1) tax_id reviewed prior).2 = none ∧
      (fetch_all_records server (fuel + 1) tax_id reviewed prior).1.logs.getLast? =
        some (info "Completed. Total downloaded: 0")) := by
  constructor
  · intro hb
    have hloop := fetchLoop_emptyBody server fuel (build_query_url tax_id reviewed)
      (initState prior) r hg hr hb
    rw [fetch_all_records_ok server (fuel + 1) tax_id reviewed prior _ hloop]
    refine ⟨by simp [initState, open_w], by simp [initState, open_w], rfl, ?_⟩
    simp [initState, open_w]
    rfl
  · intro hl hb hlink
    have hloop := fetchLoop_cons server fuel (build_query_url tax_id reviewed)
      (initState prior) r hl [] hg hr hb
    rw [hlink, fetchLoop_none] at hloop
    have hpb := processBatch_false { initState prior with
        requests := (initState prior).requests ++ [build_query_url tax_id reviewed] }
      hl [] (r.headers.xTotalResults.getD "unknown") rfl
    rw [hpb] at hloop
    rw [fetch_all_records_ok server (fuel + 1) tax_id reviewed prior _ hloop]
    refine ⟨by simp [initState, open_w], by simp [initState, open_w], rfl, ?_⟩
    simp [initState, open_w]
    rfl

/-- The header-only page of the C8 instance. -/
def c8Page : Response := ⟨200, ⟨none, some "0"⟩, "accession\tid"⟩

/-- Server of the C8 instance. -/
def c8Server : String → List Response := fun _ => [c8Page]

/-- Witness for C8: a header-only single page gives a header-only file and
total 0. -/
theorem C8_zero_matching_records_witness :
    (fetch_all_records c8Server (1 + 1) 2 "true" []).1.file = ["accession\tid" ++ "\n"] ∧
    (fetch_all_records c8Server (1 + 1) 2 "true" []).1.total = 0 ∧
    (fetch_all_records c8Server (1 + 1) 2 "true" []).2 = none ∧
    (fetch_all_records c8Server (1 + 1) 2 "true" []).1.logs.getLast? =
      some (info "Completed. Total downloaded: 0") :=
  (C8_zero_matching_records c8Server 1 2 "true" [] c8Page (by decide) (by decide)).2
    "accession\tid" (by decide) (by decide)

/-- C9: the output file is created and truncated before the first request is
issued, so when the very first request fails — retries exhausted or an
immediate HTTP error — the previous contents at the output path are already
gone: the run ends in error having made exactly one request and leaving an
empty file, whatever `prior` held. -/
theorem C9_truncated_before_first_request (server : String → List Response) (fuel : Nat)
    (tax_id : Int) (reviewed : String) (prior : List String)
    (herr : session_get (server (build_query_url tax_id reviewed)) = none ∨
      ∃ r, session_get (server (build_query_url tax_id reviewed)) = some r ∧
        raise_for_status r = true) :
    (fetch_all_records server (fuel + 1) tax_id reviewed prior).1.file = [] ∧
    (fetch_all_records server (fuel + 1) tax_id reviewed prior).1.total = 0 ∧
    (fetch_all_records server (fuel + 1) tax_id reviewed prior).1.requests =
      [build_query_url tax_id reviewed] ∧
    ((fetch_all_records server (fuel + 1) tax_id reviewed prior).2).isSome = true := by
  rcases herr with hnone | ⟨r, hg, hraise⟩
  · have hloop := fetchLoop_maxRetry server fuel (build_query_url tax_id reviewed)
      (initState prior) hnone
    rw [fetch_all_records_err server (fuel + 1) tax_id reviewed prior _ _ hloop]
    simp [initState, open_w]
  · have hloop := fetchLoop_httpError server fuel (build_query_url tax_id reviewed)
      (initState prior) r hg hraise
    rw [fetch_all_records_err server (fuel + 1) tax_id reviewed prior _ _ hloop]
    simp [initState, open_w]

/-- Server of the C9 instance: six straight 503s exhaust the five retries. -/
def c9Server : String → List Response := fun _ => List.replicate 6 resp503

/-- Witness for C9: after exhausted retries the pre-existing file contents
are gone although nothing was fetched. -/
theorem C9_truncated_before_first_request_witness :
    (fetch_all_records c9Server (4 + 1) 816 "true" ["precious data"]).1.file = [] ∧
    (fetch_all_records c9Server (4 + 1) 816 "true" ["precious data"]).1.total = 0 ∧
    (fetch_all_records c9Server (4 + 1) 816 "true" ["precious data"]).1.requests =
      [build_query_url 816 "true"] ∧
    ((fetch_all_records c9Server (4 + 1) 816 "true" ["precious data"]).2).isSome = true :=
  C9_truncated_before_first_request c9Server 4 816 "true" ["precious data"]
    (Or.inl (by decide))

/-- C10: the counter invariant.  With the header already written, a batch
adds exactly its line count to both the counter and the file; the first
(non-empty) batch adds its line count to the file but one less to the
counter; the counter never decreases, neither across one batch nor across
the whole loop; and after any batch — and at the end of any run — the file
holds exactly `total + 1` written lines (or is still empty with total 0
when no batch was ever processed). -/
theorem C10_running_counter_invariant :
    (∀ (st : FetchState) (lines : List String) (t : String), st.header_written = true →
      (processBatch st lines t).total = st.total + lines.length ∧
      (processBatch st lines t).file.length = st.file.length + lines.length) ∧
    (∀ (st : FetchState) (l : String) (ls : List String) (t : String),
      st.header_written = false →
      (processBatch st (l :: ls) t).total = st.total + ls.length ∧
      (processBatch st (l :: ls) t).file.length = st.file.length + ls.length + 1) ∧
    (∀ (st : FetchState) (lines : List String) (t : String),
      st.total ≤ (processBatch st lines t).total) ∧
    (∀ (st : FetchState) (l : String) (ls : List String) (t : String), Inv st →
      (processBatch st (l :: ls) t).file.length = (processBatch st (l :: ls) t).total + 1) ∧
    (∀ (server : String → List Response) (fuel : Nat) (url : Option String) (st : FetchState),
      Inv st → st.total ≤ (fetchLoop server fuel url st).1.total) ∧
    (∀ (server : String → List Response) (fuel : Nat) (tax_id : Int) (reviewed : String)
      (prior : List String), Inv (fetch_all_records server fuel tax_id reviewed prior).1) := by
  refine ⟨?_, ?_, processBatch_total_mono, ?_, ?_, fetch_all_records_inv⟩
  · intro st lines t hw
    rw [processBatch_true st lines t hw]
    simp
  · intro st l ls t hw
    rw [processBatch_false st l ls t hw]
    simp
    omega
  · intro st l ls t hInv
    rcases processBatch_inv st l ls t hInv with ⟨_, hlen⟩ | ⟨hfw, _, _⟩
    · exact hlen
    · rw [processBatch_header st (l :: ls) t] at hfw
      cases hfw
  · intro server fuel url st hInv
    exact (fetchLoop_inv server fuel url st hInv).2

/-- A mid-run state with the header already written. -/
def c10State : FetchState := ⟨["hdr\n", "r1\n"], 1, true, [], []⟩

/-- Witness for C10: a two-line batch on a header-written state bumps the
counter and the file by exactly two, keeping `file.length = total + 1`. -/
theorem C10_running_counter_invariant_witness :
    (processBatch c10State ["r2", "r3"] "9").total =
        c10State.total + (["r2", "r3"] : List String).length ∧
      (processBatch c10State ["r2", "r3"] "9").file.length =
        c10State.file.length + (["r2", "r3"] : List String).length :=
  C10_running_counter_invariant.1 c10State ["r2", "r3"] "9" rfl

end MineVars
